import Mathlib

/-!
Verification development for the obsws WebSocket JSON-RPC client
(src/obsws.cc).  The client keeps a set of outstanding requests keyed by a
generated correlation id ("message-id"), accumulates received bytes in a
buffer (`chunks`) until they parse as one JSON document, and routes each
parsed document either to the matching outstanding request or to the event
callback.  Connection management is a small state machine over
`ws_status` driven by libwebsockets callbacks.

The JSON layer embeds the jsoncpp `OurReader` used through
`Json::CharReaderBuilder` (default settings) in `client::callback`:
tokenizer, recursive-descent reader and the exact error-message strings,
since the client's buffer handling branches on the error text
(`err.find("Missing \x27\x7d\x27")`).  Recursion in the reader is bounded by an
explicit fuel argument standing in for jsoncpp's `stackLimit` guard; the
fuel passed at top level is always sufficient for inputs whose nesting is
below the limit.
-/

/-- Left brace character, written numerically. -/
def lbrace : Char := Char.ofNat 123

/-- Right brace character, written numerically. -/
def rbrace : Char := Char.ofNat 125

/-- JSON values as produced by the jsoncpp reader.  jsoncpp stores object
members in a `std::map` ordered by key, so `obj` keeps its association list
sorted by key with later duplicates overwriting.  Doubles are kept as their
source text: no claim inspects a double's numeric value. -/
inductive JValue where
  | null
  | bool (b : Bool)
  | int (n : Int)
  | double (text : String)
  | str (s : String)
  | arr (elems : List JValue)
  | obj (members : List (String × JValue))

/-- Lexicographic key order of the object map (`CZString`'s
memcmp-style comparison; UTF-8 byte order agrees with code-point
order). -/
def keyLt : List Char → List Char → Bool
  | [], [] => false
  | [], _ :: _ => true
  | _ :: _, [] => false
  | a :: as, b :: bs => if a < b then true else if b < a then false else keyLt as bs

/-- `Json::Value::operator[](name) = value` on an object: the underlying
`std::map` keeps keys ordered and overwrites an existing key. -/
def JValue.objInsert : List (String × JValue) → String → JValue → List (String × JValue)
  | [], k, v => [(k, v)]
  | (k2, v2) :: rest, k, v =>
    if k = k2 then (k, v) :: rest
    else if keyLt k.toList k2.toList then (k, v) :: (k2, v2) :: rest
    else (k2, v2) :: JValue.objInsert rest k v

/-- `Json::Value::isMember`: true iff the value is an object containing the
key.  (jsoncpp returns false for null; the guarded uses in the client only
apply it to parsed documents.) -/
def JValue.isMember (v : JValue) (key : String) : Bool :=
  match v with
  | .obj ms => ms.any (fun m => m.1 == key)
  | _ => false

/-- Object member lookup, `root["key"]` under an `isMember` guard: the
member if present, otherwise the null value. -/
def JValue.getMember (v : JValue) (key : String) : JValue :=
  match v with
  | .obj ms => (((ms.find? (fun m => m.1 == key)).map Prod.snd).getD .null)
  | _ => .null

/-- `Json::Value::asString` for the types the client reads: a string value
yields its text, null yields "".  (jsoncpp throws for numeric types; the
client only calls it on the "message-id" member it stamped as a string.) -/
def JValue.asString : JValue → String
  | .str s => s
  | .null => ""
  | .bool b => if b then "true" else "false"
  | _ => ""

/-! Tokenizer, mirroring `OurReader::readToken` and its helpers with the
default `CharReaderBuilder` feature set (comments allowed, no single
quotes, no special floats, no numeric keys). -/

/-- `OurReader::skipSpaces`. -/
def skipSpaces : List Char → List Char
  | [] => []
  | c :: rest =>
    if c = ' ' ∨ c = '\t' ∨ c = '\r' ∨ c = '\n' then skipSpaces rest else c :: rest

/-- `OurReader::readString`: scan for the closing quote, a backslash
skipping the following character; `none` when the input ends first
(jsoncpp then turns the token into `tokenError`).  Returns the raw
characters between the quotes and the rest of the input. -/
def scanString : List Char → Option (List Char × List Char)
  | [] => none
  | c :: rest =>
    if c = '\\' then
      match rest with
      | [] => none
      | c2 :: rest2 =>
        match scanString rest2 with
        | none => none
        | some (s, r) => some (c :: c2 :: s, r)
    else if c = '"' then some ([], rest)
    else
      match scanString rest with
      | none => none
      | some (s, r) => some (c :: s, r)

/-- The tail of `OurReader::readNumber` after the first character:
digits, then an optional fraction, then an optional exponent with optional
sign, consuming exactly what jsoncpp consumes. -/
def scanNumber (l : List Char) : List Char × List Char :=
  let p1 := l.span Char.isDigit
  let p2 :=
    match p1.2 with
    | c :: rest =>
      if c = '.' then
        let q := rest.span Char.isDigit
        (c :: q.1, q.2)
      else ([], p1.2)
    | [] => ([], p1.2)
  let p3 :=
    match p2.2 with
    | c :: rest =>
      if c = 'e' ∨ c = 'E' then
        match rest with
        | c2 :: rest2 =>
          if c2 = '+' ∨ c2 = '-' then
            let q := rest2.span Char.isDigit
            (c :: c2 :: q.1, q.2)
          else
            let q := rest.span Char.isDigit
            (c :: q.1, q.2)
        | [] => ([c], rest)
      else ([], p2.2)
    | [] => ([], p2.2)
  (p1.1 ++ p2.1 ++ p3.1, p3.2)

/-- `OurReader::readCppStyleComment`: consume up to and including the
newline (or a carriage return optionally followed by a newline). -/
def dropLineComment : List Char → List Char
  | [] => []
  | c :: rest =>
    if c = '\n' then rest
    else if c = '\r' then
      match rest with
      | '\n' :: r2 => r2
      | _ => rest
    else dropLineComment rest

/-- `OurReader::readCStyleComment`: consume up to and including the
closing star-slash; `none` when the input ends first. -/
def scanBlockComment : List Char → Option (List Char)
  | [] => none
  | c :: rest =>
    if c = '*' then
      match rest with
      | '/' :: r2 => some r2
      | _ => scanBlockComment rest
    else scanBlockComment rest

/-- Match a keyword tail (`OurReader::match`), consuming only on success. -/
def matchWord : List Char → List Char → Option (List Char)
  | [], l => some l
  | p :: ps, c :: rest => if c = p then matchWord ps rest else none
  | _ :: _, [] => none

/-- Token kinds of `OurReader::readToken`.  `lit` carries the raw
characters between the quotes of a string token; `num` the number text
including its first character; `bad` is `tokenError`. -/
inductive Tok where
  | objBegin | objEnd | arrBegin | arrEnd
  | lit (raw : List Char)
  | num (text : List Char)
  | tru | fals | nul
  | comment
  | arrSep | memSep
  | eos
  | bad

/-- `OurReader::readToken`.  On `tokenError` the exact rest of the input
is irrelevant: every caller aborts with a fixed message. -/
def nextToken (l : List Char) : Tok × List Char :=
  match skipSpaces l with
  | [] => (.eos, [])
  | c :: rest =>
    if c = lbrace then (.objBegin, rest)
    else if c = rbrace then (.objEnd, rest)
    else if c = '[' then (.arrBegin, rest)
    else if c = ']' then (.arrEnd, rest)
    else if c = '"' then
      match scanString rest with
      | some (raw, r) => (.lit raw, r)
      | none => (.bad, [])
    else if c = '/' then
      match rest with
      | c2 :: r2 =>
        if c2 = '/' then (.comment, dropLineComment r2)
        else if c2 = '*' then
          match scanBlockComment r2 with
          | some r3 => (.comment, r3)
          | none => (.bad, [])
        else (.bad, rest)
      | [] => (.bad, [])
    else if c.isDigit then
      let q := scanNumber rest
      (.num (c :: q.1), q.2)
    else if c = '-' then
      match rest with
      | c2 :: _ =>
        if c2 = 'I' then (.bad, rest)
        else
          let q := scanNumber rest
          (.num (c :: q.1), q.2)
      | [] => (.num [c], rest)
    else if c = 't' then
      match matchWord ['r', 'u', 'e'] rest with
      | some r => (.tru, r)
      | none => (.bad, rest)
    else if c = 'f' then
      match matchWord ['a', 'l', 's', 'e'] rest with
      | some r => (.fals, r)
      | none => (.bad, rest)
    else if c = 'n' then
      match matchWord ['u', 'l', 'l'] rest with
      | some r => (.nul, r)
      | none => (.bad, rest)
    else if c = ',' then (.arrSep, rest)
    else if c = ':' then (.memSep, rest)
    else (.bad, rest)

/-- `readToken` in a loop dropping comment tokens
(`readTokenSkippingComments`); fueled, each comment consumes input. -/
def skipCommentToks : Nat → List Char → Tok × List Char
  | 0, l => (.bad, l)
  | Nat.succ f, l =>
    match nextToken l with
    | (.comment, r) => skipCommentToks f r
    | t => t

/-- `OurReader::readTokenSkippingComments`. -/
def nextTokenNC (l : List Char) : Tok × List Char :=
  skipCommentToks (l.length + 1) l

/-! Error messages, verbatim from jsoncpp's `json_reader.cpp`. -/

/-- Message of `readValue`'s default branch. -/
def jerrSyntax : String := "Syntax error: value, object or array expected."

/-- Message when an object member name is expected; the only message the
client's incomplete-input test matches. -/
def jerrObjMember : String := "Missing \x27\x7d\x27 or object member name"

/-- Message when the colon after a member name is missing. -/
def jerrObjColon : String := "Missing \x27:\x27 after object member name"

/-- Message when the separator after an object member value is missing. -/
def jerrObjComma : String := "Missing \x27,\x27 or \x27\x7d\x27 in object declaration"

/-- Message when the separator after an array element is missing. -/
def jerrArr : String := "Missing \x27,\x27 or \x27]\x27 in array declaration"

/-- jsoncpp's `stackLimit` guard message; in this model it also stands for
fuel exhaustion of the bounded recursion. -/
def jerrStackLimit : String := "Exceeded stackLimit in readValue()."

/-- Message when input continues after a complete top-level value. -/
def jerrExtra : String := "Extra non-whitespace after JSON value."

/-- `decodeDouble`'s failure message for a number token. -/
def jerrNotNumber (t : List Char) : String :=
  "\x27" ++ String.mk t ++ "\x27 is not a number."

/-- Hexadecimal digit value (`decodeUnicodeEscapeSequence`'s digit step). -/
def hexDigitVal (c : Char) : Option Nat :=
  if '0' ≤ c ∧ c ≤ '9' then some (c.toNat - 48)
  else if 'a' ≤ c ∧ c ≤ 'f' then some (c.toNat - 87)
  else if 'A' ≤ c ∧ c ≤ 'F' then some (c.toNat - 55)
  else none

/-- Four hex digits to a code unit. -/
def hex4 (a b c d : Char) : Option Nat := do
  let x ← hexDigitVal a
  let y ← hexDigitVal b
  let z ← hexDigitVal c
  let w ← hexDigitVal d
  pure ((((x * 16 + y) * 16 + z) * 16) + w)

/-- `OurReader::decodeString`'s escape-processing loop over the raw
characters between the quotes, including `decodeUnicodeCodePoint`'s
surrogate-pair handling and its exact error messages. -/
def decodeStringChars : List Char → Except String (List Char)
  | [] => .ok []
  | c :: rest =>
    if c = '\\' then
      match rest with
      | [] => .error "Empty escape sequence in string"
      | e :: r2 =>
        if e = '"' then (fun l => '"' :: l) <$> decodeStringChars r2
        else if e = '/' then (fun l => '/' :: l) <$> decodeStringChars r2
        else if e = '\\' then (fun l => '\\' :: l) <$> decodeStringChars r2
        else if e = 'b' then (fun l => Char.ofNat 8 :: l) <$> decodeStringChars r2
        else if e = 'f' then (fun l => Char.ofNat 12 :: l) <$> decodeStringChars r2
        else if e = 'n' then (fun l => '\n' :: l) <$> decodeStringChars r2
        else if e = 'r' then (fun l => '\r' :: l) <$> decodeStringChars r2
        else if e = 't' then (fun l => '\t' :: l) <$> decodeStringChars r2
        else if e = 'u' then
          match r2 with
          | a :: b :: c2 :: d :: r3 =>
            match hex4 a b c2 d with
            | none =>
              .error "Bad unicode escape sequence in string: hexadecimal digit expected."
            | some u =>
              if 0xD800 ≤ u ∧ u ≤ 0xDBFF then
                match r3 with
                | e1 :: e2 :: a2 :: b2 :: c3 :: d2 :: r4 =>
                  if e1 = '\\' ∧ e2 = 'u' then
                    match hex4 a2 b2 c3 d2 with
                    | none =>
                      .error "Bad unicode escape sequence in string: hexadecimal digit expected."
                    | some u2 =>
                      (fun l => Char.ofNat (0x10000 + ((u &&& 0x3FF) <<< 10) + (u2 &&& 0x3FF)) :: l)
                        <$> decodeStringChars r4
                  else
                    .error "expecting another \\u token to begin the second half of a unicode surrogate pair"
                | _ =>
                  .error "additional six characters expected to parse unicode surrogate pair."
              else (fun l => Char.ofNat u :: l) <$> decodeStringChars r3
          | _ =>
            .error "Bad unicode escape sequence in string: four digits expected."
        else .error "Bad escape sequence in string"
    else (fun l => c :: l) <$> decodeStringChars rest

/-- Numeric value of a digit string. -/
def natOfDigits (l : List Char) : Nat :=
  l.foldl (fun a c => a * 10 + (c.toNat - 48)) 0

/-- Exponent tail acceptance of `operator>>` on a double
(the `decodeDouble` conversion): `e`/`E`, optional sign, then at least one
digit, consuming the whole remainder. -/
def validExpPart : List Char → Bool
  | [] => true
  | c :: r =>
    if c = 'e' ∨ c = 'E' then
      let r2 := match r with
        | c2 :: rr => if c2 = '+' ∨ c2 = '-' then rr else c2 :: rr
        | [] => []
      !r2.isEmpty && r2.all Char.isDigit
    else false

/-- Whether `decodeDouble`'s stream extraction accepts the whole token. -/
def validDoubleText (t : List Char) : Bool :=
  let t1 := match t with
    | c :: r => if c = '+' ∨ c = '-' then r else c :: r
    | [] => []
  let p := t1.span Char.isDigit
  match p.2 with
  | c :: r =>
    if c = '.' then
      let q := r.span Char.isDigit
      (!p.1.isEmpty || !q.1.isEmpty) && validExpPart q.2
    else !p.1.isEmpty && validExpPart p.2
  | [] => !p.1.isEmpty

/-- `OurReader::decodeDouble`. -/
def decodeDouble (t : List Char) : Except String JValue :=
  if validDoubleText t then .ok (.double (String.mk t)) else .error (jerrNotNumber t)

/-- `OurReader::decodeNumber`: all-digits after an optional minus parses as
an integer (a bare "-" decodes to 0, as in jsoncpp); anything else falls
back to `decodeDouble`.  The integral overflow-to-double refinement is
elided: no claim involves values beyond the integer range. -/
def decodeNumber (t : List Char) : Except String JValue :=
  match t with
  | [] => decodeDouble t
  | c :: rest =>
    if c = '-' then
      if rest.all Char.isDigit then .ok (.int (-(natOfDigits rest : Int)))
      else decodeDouble t
    else if (c :: rest).all Char.isDigit then .ok (.int (natOfDigits (c :: rest)))
    else decodeDouble t

mutual

/-- `OurReader::readValue`, fueled.  Errors propagate the first recorded
message, as `recoverFromError` discards messages added during recovery. -/
def readValueF : Nat → List Char → Except String (JValue × List Char)
  | 0, _ => .error jerrStackLimit
  | Nat.succ f, l =>
    match nextTokenNC l with
    | (.objBegin, r) => readObjectLoopF f [] "" r
    | (.arrBegin, r) => readArrayLoopF f [] r
    | (.num t, r) =>
      match decodeNumber t with
      | .ok v => .ok (v, r)
      | .error e => .error e
    | (.lit raw, r) =>
      match decodeStringChars raw with
      | .ok cs => .ok (.str (String.mk cs), r)
      | .error e => .error e
    | (.tru, r) => .ok (.bool true, r)
    | (.fals, r) => .ok (.bool false, r)
    | (.nul, r) => .ok (.null, r)
    | (_, _) => .error jerrSyntax

/-- `OurReader::readObject`'s member loop.  `lastName` is jsoncpp's `name`
variable: a closing brace is accepted only while it is empty (empty object
or after a member named "").  A token that is not a member-name string
falls out of the loop into the "Missing brace or object member name"
error; the colon and separator are read with plain `readToken`, a comment
in separator position restarting the loop as in jsoncpp. -/
def readObjectLoopF : Nat → List (String × JValue) → String → List Char →
    Except String (JValue × List Char)
  | 0, _, _, _ => .error jerrStackLimit
  | Nat.succ f, members, lastName, l =>
    match nextTokenNC l with
    | (.objEnd, r) =>
      if lastName = "" then .ok (.obj members, r) else .error jerrObjMember
    | (.lit raw, r) =>
      match decodeStringChars raw with
      | .error e => .error e
      | .ok nameCs =>
        let name := String.mk nameCs
        match nextToken r with
        | (.memSep, r2) =>
          match readValueF f r2 with
          | .error e => .error e
          | .ok (v, r3) =>
            let members2 := JValue.objInsert members name v
            match nextToken r3 with
            | (.objEnd, r4) => .ok (.obj members2, r4)
            | (.arrSep, r4) => readObjectLoopF f members2 name r4
            | (.comment, r4) =>
              match nextTokenNC r4 with
              | (.objEnd, r5) => .ok (.obj members2, r5)
              | (_, r5) => readObjectLoopF f members2 name r5
            | (_, _) => .error jerrObjComma
        | (_, _) => .error jerrObjColon
    | (_, _) => .error jerrObjMember

/-- `OurReader::readArray`'s element loop.  A closing bracket directly
after the opening one yields the empty array; after each element a plain
`readToken` (skipping comments) must produce a separator or the closing
bracket. -/
def readArrayLoopF : Nat → List JValue → List Char → Except String (JValue × List Char)
  | 0, _, _ => .error jerrStackLimit
  | Nat.succ f, elems, l =>
    let l2 := skipSpaces l
    if elems.isEmpty && l2.headD ' ' == ']' then .ok (.arr elems, l2.tail)
    else
      match readValueF f l2 with
      | .error e => .error e
      | .ok (v, r) =>
        match nextTokenNC r with
        | (.arrSep, r2) => readArrayLoopF f (elems ++ [v]) r2
        | (.arrEnd, r2) => .ok (.arr (elems ++ [v]), r2)
        | (_, _) => .error jerrArr

end

/-- Drop a leading byte-order mark (`skipBom`, on by default). -/
def skipBom (l : List Char) : List Char :=
  match l with
  | c :: r => if c.toNat = 0xFEFF then r else c :: r
  | [] => []

/-- `reader->parse` on the whole buffer: one top-level value, then only
end of input may follow (`failIfExtra`).  The returned error is the
message text searched by the client's buffer handling. -/
def jsonParse (s : String) : Except String JValue :=
  let l := skipBom s.toList
  match readValueF (l.length + 1000) l with
  | .error e => .error e
  | .ok (v, rest) =>
    match nextTokenNC rest with
    | (.eos, _) => .ok v
    | (_, _) => .error jerrExtra

/-! The client (src/obsws.cc, anonymous-namespace `struct client`). -/

/-- Connection states (`enum struct ws_status`). -/
inductive ws_status where
  | idle | connecting | connected | running | terminated
deriving DecidableEq

/-- An outstanding request (`struct request`): the stamped payload `d`,
the fire-and-forget flag `emit`, the failure flag, the `std::latch`
counter (constructed with 1; the completion gate is open when it reaches
0) and the reply slot `result` (initially the empty `Json::Value`). -/
structure Request where
  d : JValue
  emit : Bool
  fail : Bool
  latch : Nat
  result : JValue

/-- The client state visible to the claims: the atomic `status`, the
retry counter, the `outstanding` request list and the receive buffer
`chunks`. -/
structure Client where
  status : ws_status
  retry_count : Nat
  outstanding : List Request
  chunks : String

/-- Prefix test on character lists. -/
def isPrefixList : List Char → List Char → Bool
  | [], _ => true
  | _ :: _, [] => false
  | p :: ps, c :: cs => p == c && isPrefixList ps cs

/-- Infix test on character lists: the pattern occurs at some position. -/
def isInfixList (pat : List Char) : List Char → Bool
  | [] => isPrefixList pat []
  | c :: rest => isPrefixList pat (c :: rest) || isInfixList pat rest

/-- `std::string::find(pat) != npos`: substring containment. -/
def strContains (hay pat : String) : Bool :=
  isInfixList pat.toList hay.toList

/-- The substring the receive handler searches the parse error for
(obsws.cc:354). -/
def missingBracePat : String := "Missing \x27\x7d\x27"

/-- Outcome of one receive step's framing logic. -/
inductive FrameOutcome where
  | doc (root : JValue)
  | incomplete (buf : String)
  | cleared (err : String)

/-- The buffer handling of `LWS_CALLBACK_CLIENT_RECEIVE`
(obsws.cc:332-358): append the new bytes, parse the whole buffer; on
success deliver the document (the buffer is then cleared); on failure keep
the buffer exactly when the error text contains "Missing brace", else
clear it and report the parse failure. -/
def try_parse (buf input : String) : FrameOutcome :=
  let chunks := buf ++ input
  match jsonParse chunks with
  | .ok root => .doc root
  | .error err =>
    if strContains err missingBracePat then .incomplete chunks else .cleared err

/-- `root["message-id"].asString()` (obsws.cc:340). -/
def msgId (root : JValue) : String :=
  (root.getMember "message-id").asString

/-- The `find_if` predicate (obsws.cc:340): the reply's id string,
converted to a `Json::Value`, compared against the request's
"message-id" member; equal exactly when that member is the same string. -/
def idMatches (s : String) (e : Request) : Bool :=
  match e.d.getMember "message-id" with
  | .str t => t == s
  | _ => false

/-- The reply-routing step for a document carrying "message-id"
(obsws.cc:340-346): `std::find_if` scans `outstanding` in order; on the
first match, a fire-and-forget entry is erased, otherwise the reply is
stored in the entry and its latch counted down.  When no entry matches,
`find_if` returns `end()` and the code dereferences it unconditionally:
`none` models that undefined behavior. -/
def resolveIn (s : String) (root : JValue) : List Request → Option (List Request)
  | [] => none
  | e :: rest =>
    if idMatches s e then
      if e.emit then some rest
      else some ({ e with result := root, latch := e.latch - 1 } :: rest)
    else (resolveIn s root rest).map (fun l => e :: l)

/-- Routing of one successfully parsed document (obsws.cc:339-350): by
correlation id when "message-id" is present, else to the event callback
when one is configured and "update-type" is present, else dropped; in all
defined cases the buffer is cleared afterwards.  The second component is
the document handed to the event callback, if any. -/
def routeDoc (hasCb : Bool) (c : Client) (root : JValue) : Option (Client × Option JValue) :=
  if root.isMember "message-id" then
    (resolveIn (msgId root) root c.outstanding).map
      (fun l => ({ c with outstanding := l, chunks := "" }, none))
  else if hasCb && root.isMember "update-type" then
    some ({ c with chunks := "" }, some root)
  else some ({ c with chunks := "" }, none)

/-- One `LWS_CALLBACK_CLIENT_RECEIVE` step (obsws.cc:328-360): framing
then routing.  `none` models the undefined end-iterator dereference on an
unknown correlation id. -/
def callback_receive (hasCb : Bool) (c : Client) (input : String) :
    Option (Client × Option JValue) :=
  match try_parse c.chunks input with
  | .doc root => routeDoc hasCb c root
  | .incomplete buf => some ({ c with chunks := buf }, none)
  | .cleared _ => some ({ c with chunks := "" }, none)

/-- A sequence of complete reply documents processed in arrival order,
each through the routing step. -/
def processReplies (c : Client) : List JValue → Option Client
  | [] => some c
  | r :: rs =>
    match routeDoc true c r with
    | none => none
    | some (c2, _) => processReplies c2 rs

/-- `client::terminate` (obsws.cc:146): store `terminated` into the status
and wake all status waiters.  Nothing else: the outstanding requests, in
particular their fail flags and latches, are untouched. -/
def Client.terminate (c : Client) : Client :=
  { c with status := .terminated }

/-- `client::ensure_running` (obsws.cc:127-141) as a function of the
successive values returned by `status.load()` at the top of each loop
iteration.  Result: `some b` when the loop returns `b` after consuming a
prefix of the observations, `none` when it is still blocked in
`atomic_wait` after consuming them all; the second component counts the
`connect()` calls made. -/
def ensure_running_loop : List ws_status → Bool → Option Bool × Nat
  | [], _ => (none, 0)
  | s :: rest, started =>
    if s = .running then (some true, 0)
    else if s = .terminated then (some false, 0)
    else if s = .idle then
      if started then (some false, 0)
      else
        let p := ensure_running_loop rest true
        (p.1, p.2 + 1)
    else ensure_running_loop rest started

/-- `ensure_running` starting with `started = false`. -/
def ensure_running (obs : List ws_status) : Option Bool × Nat :=
  ensure_running_loop obs false

/-- What happened inside `client::connect` (obsws.cc:251-286): the
connection attempt was accepted by libwebsockets, or it failed and a retry
was scheduled, or it failed and the retry table was exhausted. -/
inductive ConnectResult where
  | accepted | scheduled | exhausted

/-- The fail-all loop of `client::connect`'s exhaustion branch
(obsws.cc:278-282): every outstanding entry is marked failed and its
latch counted down (gate opened) before being popped. -/
def fail_all (l : List Request) : List Request :=
  l.map (fun e => { e with fail := true, latch := e.latch - 1 })

/-- `client::connect` (obsws.cc:251-286).  On acceptance the status
becomes `connecting`; on a scheduled retry nothing changes yet; on
exhaustion the status becomes `idle` and every outstanding request is
failed, its gate opened, and popped — the second component returns the
final states of the popped requests. -/
def Client.connect (c : Client) : ConnectResult → Client × List Request
  | .accepted => ({ c with status := .connecting }, [])
  | .scheduled => (c, [])
  | .exhausted =>
    ({ c with status := .idle, outstanding := [] }, fail_all c.outstanding)

/-- The `do_retry` path of `client::callback` (obsws.cc:368-376), entered
on `LWS_CALLBACK_CLIENT_CONNECTION_ERROR` and `LWS_CALLBACK_CLIENT_CLOSED`:
status becomes `connecting`; when `lws_retry_sul_schedule_retry_wsi`
reports the table exhausted, status becomes `idle` and status waiters are
woken.  The outstanding list is NOT touched on this path. -/
def Client.do_retry (c : Client) (exhausted : Bool) : Client :=
  if exhausted then { c with status := .idle } else { c with status := .connecting }

/-- The `LWS_CALLBACK_CLIENT_ESTABLISHED` case of `client::callback`
(obsws.cc:317-321): status becomes `connected`, status waiters are woken.
`retry_count` is not written here — nor anywhere else in the client
except by the libwebsockets retry scheduler, which only increments it. -/
def Client.established (c : Client) : Client :=
  { c with status := .connected }

/-- The promotion step of `client::run` (obsws.cc:299-303): after a
service tick, `connected` is advanced to `running`. -/
def Client.promote (c : Client) : Client :=
  if c.status = .connected then { c with status := .running } else c

/-! Retry backoff configuration (obsws.cc:123, 223-230). -/

/-- `client::default_backoff_ms` is declared `uint32_t[5]` but initialized
with only four values (obsws.cc:225), so C++ zero-initializes the fifth
element. -/
def default_backoff_ms : List Nat := [250, 500, 750, 1000, 0]

/-- `client::allocate` passes `LWS_ARRAY_SIZE(default_backoff_ms) = 5` as
the table count (obsws.cc:123), and the constructor stores it as both
`retry_ms_table_count` and `conceal_count` (obsws.cc:229). -/
def nbackoff_ms : Nat := default_backoff_ms.length

/-- Modelled from the spec: the delay selection of the libwebsockets retry
scheduler (`lws_retry_sul_schedule` / `lws_retry_sul_schedule_retry_wsi`,
external to this repository), which the spec describes as: retry attempt N
(N ≥ 1) selects `table[min(N, len(table)) - 1]`.  The table and its length
are the ones the repository actually configures. -/
def retryBaseDelay (n : Nat) : Nat :=
  default_backoff_ms.getD (min n nbackoff_ms - 1) 0

/-- Modelled from the spec: the base delay perturbed by a uniformly random
jitter of `j` percent, `-20 ≤ j ≤ 20` for the configured 20% jitter. -/
def retryDelay (n : Nat) (j : Int) : Int :=
  retryBaseDelay n + retryBaseDelay n * j / 100

/-- The four-entry table named by the claim (\"default backoff table
[250, 500, 750, 1000] ms\"). -/
def specTable : List Nat := [250, 500, 750, 1000]

/-- The claim's lower bound for the Nth retry: `table[min(N,4)-1] * 0.8`. -/
def specLowerBound (n : Nat) : Nat :=
  specTable.getD (min n 4 - 1) 0 * 8 / 10

/-- The claim's upper bound for the Nth retry: `table[min(N,4)-1] * 1.2`. -/
def specUpperBound (n : Nat) : Nat :=
  specTable.getD (min n 4 - 1) 0 * 12 / 10

/-! The public API's exception flow (obsws.cc:380-464).  `call_emit`
stamps the id and submits through `request& client::send(Json::Value&&,
bool)`, which throws `runtime_error("cannot send")` when
`int client::send(const string&)` returns a negative value — which it does
when `ensure_running()` fails (returns -1) or `lws_write` fails.  The
public `obsws::emit` / `obsws::call` catch `runtime_error` and return
`false` / the empty document.  `Except` makes a propagating exception an
explicit `.error`. -/

/-- How a blocking `call()`'s wait on its completion gate ends: the
callback stored a reply and counted the gate down (the entry stays in the
outstanding list until the caller removes it), or the en-masse failure
loop of `client::connect`'s exhaustion branch opened the gate. -/
inductive WaitOutcome where
  | resolved (v : JValue)
  | failedAll

/-- `int client::send(const std::string&)` (obsws.cc:380-388): -1 when
`ensure_running()` returns false, otherwise the `lws_write` result. -/
def send_string (running : Bool) (writeResult : Int) : Int :=
  if running then writeResult else -1

/-- `request& client::send(Json::Value&&, bool)` (obsws.cc:391-402):
throws "cannot send" on a negative send result. -/
def send_request (running : Bool) (writeResult : Int) : Except String Unit :=
  if send_string running writeResult < 0 then .error "cannot send" else .ok ()

/-- `client::call_emit<true>` (obsws.cc:153-165): submit, return true. -/
def call_emit_emit (running : Bool) (writeResult : Int) : Except String Bool :=
  match send_request running writeResult with
  | .error e => .error e
  | .ok _ => .ok true

/-- `client::call_emit<false>` (obsws.cc:153-172): submit, block in
`req.l.wait()`, then move `req.result` out of the entry.  When the send
threw, the caller never reaches the wait and the exception propagates;
when the callback resolved the request, the entry is alive and the stored
reply is returned.  But the only en-masse gate-opening path —
`client::connect`'s exhaustion loop (obsws.cc:278-282) — counts the latch
down and then `pop_front()`s the entry: the `std::latch` is destroyed
with the caller still blocked on it, and `req.result` is then read from
the freed list node (obsws.cc:168).  `none` models that undefined
behavior. -/
def call_emit_call (running : Bool) (writeResult : Int) (w : WaitOutcome) :
    Option (Except String JValue) :=
  match send_request running writeResult with
  | .error e => some (.error e)
  | .ok _ =>
    match w with
    | .resolved v => some (.ok v)
    | .failedAll => none

/-- `obsws::emit` (obsws.cc:439-450): catches `runtime_error` and returns
false. -/
def obsws_emit (running : Bool) (writeResult : Int) : Except String Bool :=
  match call_emit_emit running writeResult with
  | .error _ => .ok false
  | .ok b => .ok b

/-- `obsws::call` (obsws.cc:453-464): catches `runtime_error` and returns
the empty document.  Undefined behavior below the catch stays
undefined. -/
def obsws_call (running : Bool) (writeResult : Int) (w : WaitOutcome) :
    Option (Except String JValue) :=
  match call_emit_call running writeResult w with
  | none => none
  | some (.error _) => some (.ok .null)
  | some (.ok v) => some (.ok v)

/-! Definitions used to state the correlation claim. -/

/-- The "message-id" member of a request's stamped payload. -/
def reqId (e : Request) : JValue := e.d.getMember "message-id"

/-- The id of a request, as a string. -/
def idString (e : Request) : String := (reqId e).asString

/-- Whether a request's "message-id" member is a string value (true for
every request: `call_emit` stamps the unparsed uuid string). -/
def hasStrId (e : Request) : Bool :=
  match reqId e with
  | .str _ => true
  | _ => false

/-- One routing step's effect on a single outstanding entry, for a reply
with id `s` and document `root`: the entry with the matching id gets the
reply stored and its gate counted down; every other entry is untouched. -/
def Resolve1 (s : String) (root : JValue) (e e2 : Request) : Prop :=
  (idString e = s ∧ e2 = { e with result := root, latch := e.latch - 1 }) ∨
  (idString e ≠ s ∧ e2 = e)

/-- Relation between an outstanding entry before and after a batch `rs` of
replies was routed: if some reply's id matches the entry's own id, the
entry holds exactly that reply and its gate was opened; otherwise the
entry is unchanged. -/
def RespondsTo (rs : List JValue) (e e2 : Request) : Prop :=
  (∃ r ∈ rs, msgId r = idString e ∧ e2 = { e with result := r, latch := e.latch - 1 }) ∨
  ((∀ r ∈ rs, msgId r ≠ idString e) ∧ e2 = e)

/-- A pending wait-for-reply request with id "a". -/
def sampleReq : Request := ⟨.obj [("message-id", .str "a")], false, false, 1, .null⟩

/-- A pending wait-for-reply request with id "b". -/
def sampleReqB : Request := ⟨.obj [("message-id", .str "b")], false, false, 1, .null⟩

/-- A reply document for id "a". -/
def replyA : JValue := .obj [("message-id", .str "a"), ("v", .int 1)]

/-- A reply document for id "b". -/
def replyB : JValue := .obj [("message-id", .str "b"), ("v", .int 2)]

/-! Theorems. -/

/-- C2: the claim says an inbound message whose correlation id is absent
from the outstanding set is silently dropped with the client unchanged.
The code (obsws.cc:340-341) instead dereferences the `end()` iterator
returned by `std::find_if` unconditionally — undefined behavior, modelled
as `none`: with an empty outstanding set, and with a non-matching
outstanding set, receiving a complete document with an unknown id does not
leave the client in any defined state. -/
theorem c2_unknown_id_dereferences_end :
    callback_receive true ⟨.running, 0, [], ""⟩ "\x7b\"message-id\":\"x\"\x7d" = none ∧
    callback_receive true ⟨.running, 0, [sampleReq], ""⟩
      "\x7b\"message-id\":\"zzz\"\x7d" = none := by
  exact ⟨rfl, rfl⟩

/-- C3 counterexample: on the claim's own example the buffer is NOT
preserved.  Receiving the bytes of an open brace, `"a"`, colon, `1` makes
jsoncpp report "Missing comma or brace in object declaration", which does
not contain the substring the code tests for, so the buffer is cleared;
the later closing brace alone is then a syntax error, and the claimed
successful parse of the whole document never happens — even though the
completed text is perfectly valid JSON. -/
theorem c3_counterexample :
    try_parse "" "\x7b\"a\":1" = .cleared jerrObjComma ∧
    try_parse "" "\x7d" = .cleared jerrSyntax ∧
    jsonParse ("\x7b\"a\":1" ++ "\x7d") = .ok (.obj [("a", .int 1)]) := by
  exact ⟨rfl, rfl, rfl⟩

/-- C3 (amended): try_parse has exactly three outcomes — success returns
the document (the buffer is then cleared), a parse error whose message
contains "Missing brace" preserves the buffer unchanged, and any other
parse error clears the buffer so the same malformed input is never
reprocessed.  The preserved case is input truncated where an object member
name is expected (e.g. after a member comma, as in the fourth conjunct):
appending the missing bytes afterwards yields a successful parse of the
whole document. -/
theorem c3_frame_outcomes :
    (∀ buf input root, jsonParse (buf ++ input) = .ok root →
      try_parse buf input = .doc root) ∧
    (∀ buf input err, jsonParse (buf ++ input) = .error err →
      strContains err missingBracePat = true →
      try_parse buf input = .incomplete (buf ++ input)) ∧
    (∀ buf input err, jsonParse (buf ++ input) = .error err →
      strContains err missingBracePat = false →
      try_parse buf input = .cleared err) ∧
    try_parse "" "\x7b\"a\":1," = .incomplete "\x7b\"a\":1," ∧
    try_parse "\x7b\"a\":1," "\"b\":2\x7d" = .doc (.obj [("a", .int 1), ("b", .int 2)]) ∧
    try_parse "" "\x7b\"a\":\x7d\x7d" = .cleared jerrSyntax := by
  refine ⟨?_, ?_, ?_, rfl, rfl, rfl⟩
  · intro buf input root h
    simp [try_parse, h]
  · intro buf input err h hc
    simp [try_parse, h, hc]
  · intro buf input err h hc
    simp [try_parse, h, hc]

/-- C3 witness: the three amended outcomes at concrete inputs. -/
theorem c3_witness :
    try_parse "" "\x7b\x7d" = .doc (.obj []) ∧
    try_parse "" "\x7b" = .incomplete "\x7b" ∧
    try_parse "" "]" = .cleared jerrSyntax := by
  exact ⟨c3_frame_outcomes.1 "" "\x7b\x7d" (.obj []) rfl,
    c3_frame_outcomes.2.1 "" "\x7b" jerrObjMember rfl rfl,
    c3_frame_outcomes.2.2.1 "" "]" jerrSyntax rfl rfl⟩

/-- C4 counterexample: `client::terminate` does not fail the outstanding
requests.  With one pending wait-for-reply request, after terminate that
request still has its fail flag clear and its completion gate closed
(latch still 1), so it is false that every outstanding request was marked
failed with its gate opened — the caller blocked in `call()` on that gate
stays blocked. -/
theorem c4_counterexample :
    ¬ (∀ e ∈ (Client.terminate ⟨.running, 0, [sampleReq], ""⟩).outstanding,
        e.fail = true ∧ e.latch = 0) := by
  intro h
  have h2 := h sampleReq (by simp [Client.terminate])
  simp [sampleReq] at h2

/-- C4 (amended): explicit termination, from any state, moves the state to
Terminated and wakes the status waiters — an `ensure_running` caller that
observes the terminated state returns false — but it leaves every
outstanding request untouched: no fail flag is set and no completion gate
is opened, so a caller already blocked in `call()` is not unblocked. -/
theorem c4_terminate_state_only (c : Client) (obs : List ws_status) :
    (c.terminate).status = .terminated ∧
    (c.terminate).outstanding = c.outstanding ∧
    (ensure_running (.terminated :: obs)).1 = some false := by
  refine ⟨rfl, rfl, ?_⟩
  simp [ensure_running, ensure_running_loop]

/-- C5: the claim says every retry-table-exhaustion path fails all
outstanding requests.  The exhaustion path reached from a connection
error or close of an established connection (`do_retry`,
obsws.cc:368-374) only moves the state to Idle and wakes status waiters:
with one pending request, that request keeps its clear fail flag and its
closed gate, so a blocked `call()` waits forever.  The sibling exhaustion
path inside `client::connect` (obsws.cc:274-283) does fail every
outstanding request and open its gate, as the last conjunct shows. -/
theorem c5_do_retry_exhaustion_skips_fail_all :
    (Client.do_retry ⟨.connecting, 5, [sampleReq], ""⟩ true).status = .idle ∧
    (Client.do_retry ⟨.connecting, 5, [sampleReq], ""⟩ true).outstanding = [sampleReq] ∧
    sampleReq.fail = false ∧ sampleReq.latch = 1 ∧
    ((Client.connect ⟨.connecting, 5, [sampleReq], ""⟩ .exhausted).2.all
      (fun e => e.fail && e.latch == 0)) = true := by
  exact ⟨rfl, rfl, rfl, rfl, rfl⟩

/-- C7: the claim's bound fails at the fifth retry.  The code declares the
table `uint32_t[5]` with four initializers, so the fifth entry is zero,
and passes 5 as the table length; retry attempt 5 therefore selects a base
delay of 0 ms — any jittered delay is 0 — while the claim demands a delay
within [800, 1200] ms.  For attempts 1..4 the selected base matches the
claim's table. -/
theorem c7_backoff_fifth_attempt_zero :
    (∀ n, 1 ≤ n → n ≤ 4 → retryBaseDelay n = specTable.getD (min n 4 - 1) 0) ∧
    retryBaseDelay 5 = 0 ∧
    (∀ j : Int, -20 ≤ j → j ≤ 20 → retryDelay 5 j = 0) ∧
    specLowerBound 5 = 800 ∧ specUpperBound 5 = 1200 ∧
    ¬ ((specLowerBound 5 : Int) ≤ retryDelay 5 0) := by
  refine ⟨?_, rfl, ?_, rfl, rfl, by decide⟩
  · intro n h1 h4
    interval_cases n <;> rfl
  · intro j _ _
    simp [retryDelay, retryBaseDelay, nbackoff_ms, default_backoff_ms]

/-- C7 witness: the first retry's base is 250 ms as the claim's table
says, and the fifth retry's (zero-jitter) delay is 0 ms. -/
theorem c7_witness :
    retryBaseDelay 1 = 250 ∧ retryDelay 5 0 = 0 := by
  constructor
  · have h := c7_backoff_fifth_attempt_zero.1 1 (by decide) (by decide)
    simpa using h
  · exact c7_backoff_fifth_attempt_zero.2.2.1 0 (by decide) (by decide)

/-- C8 counterexample: the retry counter is not reset on reaching
Connected.  A client whose counter is 3 still has counter 3 after the
ESTABLISHED transition, not 0 as the claim requires. -/
theorem c8_counterexample :
    (Client.established ⟨.connecting, 3, [], ""⟩).retry_count = 3 ∧
    ¬ (Client.established ⟨.connecting, 3, [], ""⟩).retry_count = 0 := by
  exact ⟨rfl, by decide⟩

/-- C8 (amended): the ESTABLISHED transition only stores the Connected
state and wakes status waiters; `retry_count` is left unchanged — no code
path in the client ever resets it, it is only incremented by the
libwebsockets retry scheduler — and the subsequent promotion to Running
leaves it unchanged too.  After a later disconnect the backoff therefore
resumes from where the counter left off, not from the first table
entry. -/
theorem c8_established_keeps_retry_count (c : Client) :
    (c.established).status = .connected ∧
    (c.established).retry_count = c.retry_count ∧
    ((c.established).promote).status = .running ∧
    ((c.established).promote).retry_count = c.retry_count := by
  refine ⟨rfl, rfl, ?_, ?_⟩ <;> simp [Client.established, Client.promote]

/-- C9: the claim — under the expected failure conditions emit() and
call() never propagate an exception or abort, emit() always returning a
definite boolean and call() always a definite document — fails on the
en-masse failure path.  The exception handling itself is faithful:
emit() always returns a definite boolean, false whenever the client is
not running or the write fails, and a call() whose send throws returns
the empty document through the catch; a call() resolved by the callback
returns that reply.  But a call() already blocked on its completion gate
when the retry-exhaustion fail-all loop runs (obsws.cc:278-282) has its
request popped and destroyed under it, and then reads `req.result` from
the freed node (obsws.cc:167-169): no defined document is returned
there, so "call() always returns a definite document" does not hold. -/
theorem c9_fail_all_use_after_free (running : Bool) (w : Int) :
    (∃ b, obsws_emit running w = .ok b) ∧
    (running = false ∨ w < 0 → obsws_emit running w = .ok false ∧
      ∀ o, obsws_call running w o = some (.ok .null)) ∧
    (∀ v, obsws_call true 0 (.resolved v) = some (.ok v)) ∧
    obsws_call true 0 .failedAll = none := by
  refine ⟨?_, ?_, fun v => rfl, rfl⟩
  · cases running
    · exact ⟨false, by simp [obsws_emit, call_emit_emit, send_request, send_string]⟩
    · by_cases hw : w < 0
      · exact ⟨false, by simp [obsws_emit, call_emit_emit, send_request, send_string, hw]⟩
      · exact ⟨true, by simp [obsws_emit, call_emit_emit, send_request, send_string, hw]⟩
  · intro h
    have hsend : send_request running w = .error "cannot send" := by
      rcases h with h | h
      · subst h
        simp [send_request, send_string]
      · cases running <;> simp [send_request, send_string, h]
    constructor
    · simp [obsws_emit, call_emit_emit, hsend]
    · intro o
      simp [obsws_call, call_emit_call, hsend]

/-- C9 witness: the defined and the missing outcomes at concrete inputs —
a client that never reached Running returns false from emit and the empty
document from call (the exception is caught before any wait), while a
running client whose blocked call was failed en masse has no defined
result at all. -/
theorem c9_fail_all_witness :
    obsws_emit false 0 = .ok false ∧
    obsws_call false 0 .failedAll = some (.ok .null) ∧
    obsws_call true 0 .failedAll = none := by
  refine ⟨((c9_fail_all_use_after_free false 0).2.1 (Or.inl rfl)).1,
    ((c9_fail_all_use_after_free false 0).2.1 (Or.inl rfl)).2 .failedAll,
    (c9_fail_all_use_after_free true 0).2.2.2⟩

/-- C10: the receive buffer is preserved on a failed parse exactly when
the parser's message contains the "Missing brace" substring; truncation
inside a string value, inside an array, and inside a number each produce a
different jsoncpp message and clear the buffer; the preserved case is
truncation where an object member name is expected. -/
theorem c10_preserved_iff_missing_brace :
    (∀ buf input err, jsonParse (buf ++ input) = .error err →
      (try_parse buf input = .incomplete (buf ++ input) ↔
        strContains err missingBracePat = true)) ∧
    jsonParse "\x7b\"a\":\"b" = .error jerrSyntax ∧
    try_parse "" "\x7b\"a\":\"b" = .cleared jerrSyntax ∧
    jsonParse "[1,2" = .error jerrArr ∧
    try_parse "" "[1,2" = .cleared jerrArr ∧
    jsonParse "\x7b\"a\":12" = .error jerrObjComma ∧
    try_parse "" "\x7b\"a\":12" = .cleared jerrObjComma ∧
    jsonParse "\x7b\"a\":1," = .error jerrObjMember ∧
    try_parse "" "\x7b\"a\":1," = .incomplete "\x7b\"a\":1," := by
  refine ⟨?_, rfl, rfl, rfl, rfl, rfl, rfl, rfl, rfl⟩
  intro buf input err h
  cases hc : strContains err missingBracePat <;> simp [try_parse, h, hc]

/-- C10 witness: the characterization applied to a concrete truncated
object: the buffer is preserved, and the message indeed contains the
pattern. -/
theorem c10_witness :
    try_parse "" "\x7b" = .incomplete "\x7b" ∧
    strContains jerrObjMember missingBracePat = true := by
  exact ⟨(c10_preserved_iff_missing_brace.1 "" "\x7b" jerrObjMember rfl).mpr rfl, rfl⟩

/-- Once `connect()` has been called (`started = true`), the loop never
calls it again. -/
theorem ensure_running_loop_count_started (obs : List ws_status) :
    (ensure_running_loop obs true).2 = 0 := by
  induction obs with
  | nil => rfl
  | cons s rest ih =>
    simp only [ensure_running_loop]
    split_ifs <;> simp_all

/-- The loop calls `connect()` at most once, whatever is observed. -/
theorem ensure_running_loop_count_le (obs : List ws_status) (started : Bool) :
    (ensure_running_loop obs started).2 ≤ 1 := by
  induction obs generalizing started with
  | nil => simp [ensure_running_loop]
  | cons s rest ih =>
    simp only [ensure_running_loop]
    split_ifs with h1 h2 h3 h4
    · simp
    · simp
    · simp
    · simp [ensure_running_loop_count_started rest]
    · exact ih started

/-- A true return means the running state was observed. -/
theorem ensure_running_loop_true_running (obs : List ws_status) (started : Bool)
    (h : (ensure_running_loop obs started).1 = some true) : ws_status.running ∈ obs := by
  induction obs generalizing started with
  | nil => simp [ensure_running_loop] at h
  | cons s rest ih =>
    simp only [ensure_running_loop] at h
    split_ifs at h with h1 h2 h3 h4
    · exact h1 ▸ List.mem_cons_self s rest
    · simp at h
    · simp at h
    · exact List.mem_cons_of_mem s (ih true h)
    · exact List.mem_cons_of_mem s (ih started h)

/-- A false return means the terminated state was observed, or the idle
state was observed once more than the `started` flag already accounts
for. -/
theorem ensure_running_loop_false (obs : List ws_status) (started : Bool)
    (h : (ensure_running_loop obs started).1 = some false) :
    ws_status.terminated ∈ obs ∨
      2 ≤ obs.count .idle + (if started then 1 else 0) := by
  induction obs generalizing started with
  | nil => simp [ensure_running_loop] at h
  | cons s rest ih =>
    simp only [ensure_running_loop] at h
    split_ifs at h with h1 h2 h3 h4
    · simp at h
    · exact Or.inl (h2 ▸ List.mem_cons_self s rest)
    · right
      subst h3
      subst h4
      rw [List.count_cons_self]
      simp only [eq_self_iff_true, if_true]
      omega
    · rcases ih true h with hterm | hcount
      · exact Or.inl (List.mem_cons_of_mem s hterm)
      · right
        subst h3
        rw [List.count_cons_self]
        simp only [eq_self_iff_true, if_true] at hcount ⊢
        omega
    · rcases ih started h with hterm | hcount
      · exact Or.inl (List.mem_cons_of_mem s hterm)
      · right
        rw [List.count_cons_of_ne (fun hc => h3 hc.symm)]
        exact hcount

/-- C6 counterexample: `ensure_running` does not only return on Running or
Terminated.  Observing Idle, triggering the one connect attempt, then
observing Idle again (the retry table exhausted and the state fell back to
Idle), the loop returns false although neither Running nor Terminated was
ever observed. -/
theorem c6_counterexample :
    (ensure_running [.idle, .idle]).1 = some false ∧
    ws_status.terminated ∉ ([.idle, .idle] : List ws_status) ∧
    ws_status.running ∉ ([.idle, .idle] : List ws_status) := by
  refine ⟨rfl, by decide, by decide⟩

/-- C6 (amended): `ensure_running` triggers at most one connect attempt,
and exactly one when the first observed state is Idle; it returns true
only after observing Running; it returns false after observing Terminated
or after observing Idle a second time (the connect attempt it triggered
fell back to Idle, i.e. retry exhaustion) — not only in the Terminated
case. -/
theorem c6_ensure_running_amended (obs : List ws_status) :
    (ensure_running obs).2 ≤ 1 ∧
    (∀ rest, obs = .idle :: rest → (ensure_running obs).2 = 1) ∧
    ((ensure_running obs).1 = some true → ws_status.running ∈ obs) ∧
    ((ensure_running obs).1 = some false →
      ws_status.terminated ∈ obs ∨ 2 ≤ obs.count .idle) := by
  refine ⟨ensure_running_loop_count_le obs false, ?_, ?_, ?_⟩
  · intro rest hobs
    subst hobs
    show (ensure_running_loop (.idle :: rest) false).2 = 1
    simp only [ensure_running_loop]
    split_ifs <;> simp_all [ensure_running_loop_count_started rest]
  · exact fun h => ensure_running_loop_true_running obs false h
  · intro h
    have := ensure_running_loop_false obs false h
    simpa using this

/-- C6 witness: the amended behavior at concrete observation traces —
idle then connecting then running makes one connect attempt and returns
true with Running observed; a terminated trace returns false. -/
theorem c6_witness :
    (ensure_running [.idle, .connecting, .running]).2 = 1 ∧
    ((ensure_running [.idle, .connecting, .running]).1 = some true →
      ws_status.running ∈ ([.idle, .connecting, .running] : List ws_status)) ∧
    (ensure_running [.terminated]).1 = some false := by
  refine ⟨(c6_ensure_running_amended [.idle, .connecting, .running]).2.1
      [.connecting, .running] rfl,
    (c6_ensure_running_amended [.idle, .connecting, .running]).2.2.1, rfl⟩

/-- For a request whose id is a string, the `find_if` predicate holds
exactly when that id string is the searched one. -/
theorem idMatches_iff (s : String) (e : Request) (h : hasStrId e = true) :
    idMatches s e = true ↔ idString e = s := by
  unfold hasStrId reqId at h
  unfold idMatches idString reqId JValue.asString
  rcases hh : e.d.getMember "message-id" with _ | b | n | t | t | l | l <;>
    rw [hh] at h <;> simp_all

/-- `resolveIn` with a unique matching wait-for-reply entry: it succeeds,
updating exactly the matching entry (reply stored, gate counted down) and
leaving every other entry unchanged. -/
theorem resolveIn_spec (s : String) (root : JValue) :
    ∀ l : List Request,
    (∀ e ∈ l, e.emit = false ∧ hasStrId e = true) →
    l.Pairwise (fun a b => idString a ≠ idString b) →
    (∃ e ∈ l, idString e = s) →
    ∃ l2, resolveIn s root l = some l2 ∧ List.Forall₂ (Resolve1 s root) l l2 := by
  intro l
  induction l with
  | nil => intro _ _ hex; simp at hex
  | cons e rest ih =>
    intro hall hpw hex
    by_cases hm : idMatches s e = true
    · have hid : idString e = s :=
        (idMatches_iff s e (hall e (List.mem_cons_self e rest)).2).mp hm
      have hemit : e.emit = false := (hall e (List.mem_cons_self e rest)).1
      refine ⟨{ e with result := root, latch := e.latch - 1 } :: rest, ?_, ?_⟩
      · simp [resolveIn, hm, hemit]
      · refine List.Forall₂.cons (Or.inl ⟨hid, rfl⟩) ?_
        refine List.forall₂_same.mpr ?_
        intro x hx
        have hne : idString e ≠ idString x := (List.pairwise_cons.mp hpw).1 x hx
        exact Or.inr ⟨fun hxs => hne (hid.trans hxs.symm), rfl⟩
    · have hid : idString e ≠ s := fun hcon =>
        hm ((idMatches_iff s e (hall e (List.mem_cons_self e rest)).2).mpr hcon)
      have hex2 : ∃ x ∈ rest, idString x = s := by
        rcases hex with ⟨x, hx, hxs⟩
        rcases List.mem_cons.mp hx with rfl | hx2
        · exact absurd hxs hid
        · exact ⟨x, hx2, hxs⟩
      rcases ih (fun x hx => hall x (List.mem_cons_of_mem e hx))
          (List.pairwise_cons.mp hpw).2 hex2 with ⟨l2, hres, hf⟩
      refine ⟨e :: l2, ?_, List.Forall₂.cons (Or.inr ⟨hid, rfl⟩) hf⟩
      simp [resolveIn, hm, hres]

/-- Composition of two elementwise relations along a middle list. -/
theorem forall₂_compose {α β γ : Type} {R : α → β → Prop} {S : β → γ → Prop} :
    ∀ {l1 : List α} {l2 : List β} {l3 : List γ},
    List.Forall₂ R l1 l2 → List.Forall₂ S l2 l3 →
    List.Forall₂ (fun a c => ∃ b, R a b ∧ S b c) l1 l3 := by
  intro l1 l2 l3 h1
  induction h1 generalizing l3 with
  | nil =>
    intro h2
    cases h2
    exact .nil
  | cons hr _ ih =>
    intro h2
    cases h2 with
    | cons hs ht => exact .cons ⟨_, hr, hs⟩ (ih ht)

/-- A routing step keeps every entry's mode, id and id string: only the
matching entry's result and latch change. -/
theorem resolve1_invariants (s : String) (root : JValue) :
    ∀ {l l2 : List Request}, List.Forall₂ (Resolve1 s root) l l2 →
    (∀ e ∈ l, e.emit = false ∧ hasStrId e = true) →
    (∀ e ∈ l2, e.emit = false ∧ hasStrId e = true) ∧
      l2.map idString = l.map idString := by
  intro l l2 hf
  induction hf with
  | nil => exact fun _ => ⟨by simp, rfl⟩
  | @cons a b la lb hr hrest ih =>
    intro hall
    have hab : b.emit = a.emit ∧ hasStrId b = hasStrId a ∧ idString b = idString a := by
      rcases hr with ⟨_, hb⟩ | ⟨_, hb⟩ <;> subst hb <;> exact ⟨rfl, rfl, rfl⟩
    rcases ih (fun x hx => hall x (List.mem_cons_of_mem a hx)) with ⟨ih1, ih2⟩
    have ha := hall a (List.mem_cons_self a la)
    constructor
    · intro x hx
      rcases List.mem_cons.mp hx with rfl | hx2
      · exact ⟨hab.1.trans ha.1, hab.2.1.trans ha.2⟩
      · exact ih1 x hx2
    · simp [hab.2.2, ih2]

/-- C1: replies are matched strictly by correlation id.  For any set of
outstanding wait-for-reply requests with distinct (string) correlation
ids — which is what N concurrent `call()` invocations produce, each
stamping a fresh uuid — and any batch of complete reply documents with
distinct ids each matching some outstanding request, processing the
replies in ANY arrival order succeeds, and afterwards each outstanding
entry either holds exactly the one reply whose id equals its own id (with
its completion gate opened, so that `call()` wakes and returns that
stored reply, obsws.cc:167-170), or is untouched when no reply carried
its id.  In particular no invocation ever observes a reply with a foreign
id. -/
theorem c1_call_correlation :
    ∀ (rs : List JValue) (c : Client),
    (∀ e ∈ c.outstanding, e.emit = false ∧ hasStrId e = true) →
    c.outstanding.Pairwise (fun a b => idString a ≠ idString b) →
    (∀ r ∈ rs, r.isMember "message-id" = true) →
    (∀ r ∈ rs, ∃ e ∈ c.outstanding, idString e = msgId r) →
    rs.Pairwise (fun a b => msgId a ≠ msgId b) →
    ∃ c2, processReplies c rs = some c2 ∧
      List.Forall₂ (RespondsTo rs) c.outstanding c2.outstanding := by
  intro rs
  induction rs with
  | nil =>
    intro c _ _ _ _ _
    refine ⟨c, rfl, List.forall₂_same.mpr ?_⟩
    intro e _
    exact Or.inr ⟨by simp, rfl⟩
  | cons r rest ih =>
    intro c hall hpw hmem hmatch hrpw
    have hex : ∃ e ∈ c.outstanding, idString e = msgId r :=
      hmatch r (List.mem_cons_self r rest)
    rcases resolveIn_spec (msgId r) r c.outstanding hall hpw hex with ⟨l2, hres, hf⟩
    have hroute : routeDoc true c r =
        some ({ c with outstanding := l2, chunks := "" }, none) := by
      simp [routeDoc, hmem r (List.mem_cons_self r rest), hres]
    rcases resolve1_invariants (msgId r) r hf hall with ⟨hall2, hmapeq⟩
    have hpw2 : l2.Pairwise (fun a b => idString a ≠ idString b) := by
      have h1 : (c.outstanding.map idString).Pairwise (fun a b => a ≠ b) :=
        (List.pairwise_map).mpr hpw
      have h2 : (l2.map idString).Pairwise (fun a b => a ≠ b) := by
        rw [hmapeq]
        exact h1
      exact (List.pairwise_map).mp h2
    have hmatch2 : ∀ r2 ∈ rest, ∃ e ∈ l2, idString e = msgId r2 := by
      intro r2 hr2
      rcases hmatch r2 (List.mem_cons_of_mem r hr2) with ⟨e, he, hes⟩
      have hmm : msgId r2 ∈ l2.map idString := by
        rw [hmapeq]
        exact List.mem_map.mpr ⟨e, he, hes⟩
      rcases List.mem_map.mp hmm with ⟨e2, he2, he2s⟩
      exact ⟨e2, he2, he2s⟩
    rcases ih { c with outstanding := l2, chunks := "" } hall2 hpw2
        (fun r2 h2 => hmem r2 (List.mem_cons_of_mem r h2)) hmatch2
        (List.pairwise_cons.mp hrpw).2 with ⟨c2, hproc, hf2⟩
    refine ⟨c2, ?_, ?_⟩
    · show processReplies c (r :: rest) = some c2
      simp only [processReplies, hroute]
      exact hproc
    · have hrhead : ∀ r2 ∈ rest, msgId r ≠ msgId r2 := (List.pairwise_cons.mp hrpw).1
      have hcomp := forall₂_compose hf hf2
      refine hcomp.imp ?_
      rintro a cg ⟨b, h1, h2⟩
      rcases h1 with ⟨hida, hb⟩ | ⟨hnida, hb⟩
      · have hidb : idString b = idString a := by
          subst hb
          rfl
        rcases h2 with ⟨r2, hr2mem, hr2id, hceq⟩ | ⟨_, hceq⟩
        · exact absurd (hr2id.trans (hidb.trans hida)).symm (hrhead r2 hr2mem)
        · subst hceq
          subst hb
          exact Or.inl ⟨r, List.mem_cons_self r rest, hida.symm, rfl⟩
      · subst hb
        rcases h2 with ⟨r2, hr2mem, hr2id, hceq⟩ | ⟨hno, hceq⟩
        · exact Or.inl ⟨r2, List.mem_cons_of_mem r hr2mem, hr2id, hceq⟩
        · refine Or.inr ⟨?_, hceq⟩
          intro r2 hr2
          rcases List.mem_cons.mp hr2 with rfl | h
          · exact fun hcon => hnida hcon.symm
          · exact hno r2 h

/-- C1 witness: two pending requests with ids "a" and "b"; the replies
arrive in the opposite order of submission (b's first), yet the "a"
request ends holding exactly reply a and the "b" request exactly reply b,
each with its gate opened. -/
theorem c1_witness :
    (∃ c2,
      processReplies ⟨.running, 0, [sampleReq, sampleReqB], ""⟩ [replyB, replyA] = some c2 ∧
      List.Forall₂ (RespondsTo [replyB, replyA]) [sampleReq, sampleReqB] c2.outstanding) ∧
    processReplies ⟨.running, 0, [sampleReq, sampleReqB], ""⟩ [replyB, replyA] =
      some ⟨.running, 0,
        [{ sampleReq with result := replyA, latch := 0 },
         { sampleReqB with result := replyB, latch := 0 }], ""⟩ := by
  constructor
  · exact c1_call_correlation [replyB, replyA] ⟨.running, 0, [sampleReq, sampleReqB], ""⟩
      (by decide) (by decide) (by decide) (by decide) (by decide)
  · rfl
